import Mathlib

/-!
Shallow embedding of the GAN training loop in `src/tf_version/training_loop.py`.

The two networks, the two optimizers, the loss functions and the gradient
operator are external collaborators of the loop (they live in other modules /
in the numerical library); they are abstracted as fields of a `Collab`
structure. Randomness (`tf.random.normal`) is modelled by a draw counter: a
draw is identified by its shape together with the position of the global
counter at the moment of the call, which faithfully captures "fresh i.i.d.
sample per call". Scalar losses are modelled as rationals. Side effects
(progress bar, image sampling, checkpoint save, model export, prints) are
recorded in an event trace, and the two Python failure modes of the epoch
reporting code (division by a zero batch count, use of the never-bound
`disc_loss` variable when the dataset yields no batch) are modelled by an
explicit error outcome.
-/

namespace GanTrain

/-- `EPOCHS = 50` (module-level constant). -/
def EPOCHS : Nat := 50

/-- `noise_dim = 100`. -/
def noise_dim : Nat := 100

/-- `num_examples_to_generate = 16`. -/
def num_examples_to_generate : Nat := 16

/-- `checkpoint_dir = './training_checkpoints'`. -/
def checkpointDir : String := "./training_checkpoints"

/-- `os.path.join(checkpoint_dir, 'ckpt')`. -/
def ckptPfx : String := checkpointDir ++ "/" ++ "ckpt"

/-- Fixed path of the per-epoch generator export, `tf.saved_model.save(generator, './models/1/')`. -/
def modelExportPath : String := "./models/1/"

/-- A draw of `tf.random.normal([rows, cols])`: identified by its shape and by the
position `ctr` of the global random stream at the moment of the call. Two draws
made at different positions of the stream are distinct values. -/
structure Noise where
  rows : Nat
  cols : Nat
  ctr : Nat
deriving DecidableEq, Repr

/-- `tf.random.normal([rows, cols])`: consumes one position of the random stream. -/
def sampleNormal (rows cols rng : Nat) : Noise × Nat :=
  (⟨rows, cols, rng⟩, rng + 1)

/-- Module-level `seed = tf.random.normal([num_examples_to_generate, noise_dim])`,
drawn exactly once at startup from the initial random stream position. -/
def setupSeed (rng0 : Nat) : Noise × Nat :=
  sampleNormal num_examples_to_generate noise_dim rng0

/-- The mutable module-level training state: generator parameters, discriminator
parameters, the two optimizer states, and the random stream position. -/
structure TrainState (GP DP GO DO : Type) where
  gp : GP
  dp : DP
  go : GO
  dOpt : DO
  rng : Nat
deriving DecidableEq, Repr

/-- The external collaborators of the loop: forward evaluation of the two
networks, the two loss functions, the gradient operator of each tape
(`tape.gradient(loss, vars)` is the derivative of the recorded scalar
computation, seen as a function of the watched variables, at their current
value), and the two optimizers' `apply_gradients`. -/
structure Collab (Img S GP DP GO DO GG DG : Type) where
  genForward : GP → Noise → List Img
  discForward : DP → List Img → S
  gen_loss_fn : S → ℚ
  disc_loss_fn : S → S → ℚ
  gradG : (GP → ℚ) → GP → GG
  gradD : (DP → ℚ) → DP → DG
  genApply : GO → GG → GP → GO × GP
  discApply : DO → DG → DP → DO × DP

/-- Everything one call of `train_step` produces: the two returned scalar
losses, the updated four state components, the advanced random stream, and the
intermediate tensors of the single forward pass. -/
structure StepResult (S GP DP GO DO : Type) where
  genLoss : ℚ
  discLoss : ℚ
  gp' : GP
  dp' : DP
  go' : GO
  dOpt' : DO
  rng' : Nat
  noiseUsed : Noise
  realOut : S
  fakeOut : S

variable {Img S GP DP GO DO GG DG : Type}

/-- `train_step(images)`.  `batch_size = images.shape[0]`; one fresh noise draw of
shape `[batch_size, noise_dim]`; one generator forward pass; two discriminator
forward passes (real batch, fake batch) at the pre-update parameters; the two
losses from those outputs; `gen_tape.gradient(gen_loss, generator.trainable_variables)`
differentiates the recorded generator-loss computation with respect to the
generator parameters (discriminator parameters and noise held fixed), and
`disc_tape.gradient(disc_loss, discriminator.trainable_variables)` differentiates
the recorded discriminator-loss computation with respect to the discriminator
parameters (the generated images held fixed); each optimizer then applies its
own gradients to its own network. -/
def trainStep (c : Collab Img S GP DP GO DO GG DG) (st : TrainState GP DP GO DO)
    (images : List Img) : StepResult S GP DP GO DO :=
  let bsz := images.length
  let ns := sampleNormal bsz noise_dim st.rng
  let noise := ns.1
  let generated := c.genForward st.gp noise
  let realOut := c.discForward st.dp images
  let fakeOut := c.discForward st.dp generated
  let gl := c.gen_loss_fn fakeOut
  let dl := c.disc_loss_fn realOut fakeOut
  let gg := c.gradG (fun gp => c.gen_loss_fn (c.discForward st.dp (c.genForward gp noise))) st.gp
  let dg := c.gradD (fun dp => c.disc_loss_fn (c.discForward dp images) (c.discForward dp generated)) st.dp
  let gA := c.genApply st.go gg st.gp
  let dA := c.discApply st.dOpt dg st.dp
  { genLoss := gl, discLoss := dl, gp' := gA.2, dp' := dA.2, go' := gA.1, dOpt' := dA.1,
    rng' := ns.2, noiseUsed := noise, realOut := realOut, fakeOut := fakeOut }

/-- The training state after one `train_step`. -/
def nextState (R : StepResult S GP DP GO DO) : TrainState GP DP GO DO :=
  ⟨R.gp', R.dp', R.go', R.dOpt', R.rng'⟩

/-- The sequence of `train_step` results over the batches of one epoch, in
order, threading the state. -/
def stepResults (c : Collab Img S GP DP GO DO GG DG) :
    TrainState GP DP GO DO → List (List Img) → List (StepResult S GP DP GO DO)
  | _, [] => []
  | st, b :: rest =>
    let R := trainStep c st b
    R :: stepResults c (nextState R) rest

/-- The training state after the whole batch loop of one epoch. -/
def statesEnd (c : Collab Img S GP DP GO DO GG DG) :
    TrainState GP DP GO DO → List (List Img) → TrainState GP DP GO DO
  | st, [] => st
  | st, b :: rest => statesEnd c (nextState (trainStep c st b)) rest

/-- One observable event of the loop. `stepEv` records the noise used and the two
losses returned by one `train_step`; `sampleEv` is one call of
`generate_and_save_images(generator, label, seed)`; `checkpointSaveEv` is
`checkpoint.save(file_prefix=...)` carrying the full bundled state;
`exportEv` is `tf.saved_model.save(generator, path)`; the `print*` events are
the three end-of-epoch report lines and the `Saving model...` line. -/
inductive Ev (GP DP GO DO : Type) where
  | stepEv (noise : Noise) (genLoss discLoss : ℚ)
  | pbarUpdate
  | sampleEv (gp : GP) (label : Nat) (sd : Noise)
  | checkpointSaveEv (pfx : String) (gp : GP) (dp : DP) (go : GO) (dOpt : DO)
  | printSaving
  | exportEv (path : String) (gp : GP)
  | printTime (label : Nat)
  | printGenLoss (q : ℚ)
  | printDiscLoss (q : ℚ)
deriving DecidableEq, Repr

/-- The two Python exceptions that the epoch reporting code can raise:
`ZeroDivisionError` from `gen_loss_sum / batch_num` when `batch_num == 0`, and
`NameError` from reading the loop variable `disc_loss` when the batch loop made
no iteration. -/
inductive PyError where
  | zeroDivision
  | nameErrorDiscLoss
deriving DecidableEq, Repr

/-- Result of the batch loop of one epoch: final state, the two running loss
sums, the current value of the loop variable `disc_loss` (None when the loop
body never ran), and the emitted events. -/
structure BatchesResult (S GP DP GO DO : Type) where
  state : TrainState GP DP GO DO
  genSum : ℚ
  discSum : ℚ
  lastDisc : Option ℚ
  trace : List (Ev GP DP GO DO)

/-- The batch loop body of `train`, as a left fold mirroring the Python loop:
`gen_loss, disc_loss = train_step(image_batch); gen_loss_sum += gen_loss;
disc_loss_sum += disc_loss; pbar.update(1)`. -/
def runBatchesAux (c : Collab Img S GP DP GO DO GG DG) :
    TrainState GP DP GO DO → ℚ → ℚ → Option ℚ → List (Ev GP DP GO DO) →
    List (List Img) → BatchesResult S GP DP GO DO
  | st, gs, ds, ld, tr, [] => ⟨st, gs, ds, ld, tr⟩
  | st, gs, ds, _, tr, b :: rest =>
    let R := trainStep c st b
    runBatchesAux c (nextState R) (gs + R.genLoss) (ds + R.discLoss) (some R.discLoss)
      (tr ++ [Ev.stepEv R.noiseUsed R.genLoss R.discLoss, Ev.pbarUpdate]) rest

/-- The batch loop of one epoch, started with `gen_loss_sum = 0.0`,
`disc_loss_sum = 0.0` and `disc_loss` unbound. -/
def runBatches (c : Collab Img S GP DP GO DO GG DG) (st : TrainState GP DP GO DO)
    (batches : List (List Img)) : BatchesResult S GP DP GO DO :=
  runBatchesAux c st 0 0 none [] batches

/-- `batch_num = int(np.ceil(dataset_size / batch_size))`. -/
def batchNum (dataset_size batch_size : Nat) : Nat :=
  (dataset_size + batch_size - 1) / batch_size

/-- Result of one epoch (or of a whole run): final state, event trace, and the
uncaught Python exception when one was raised. -/
structure RunResult (GP DP GO DO : Type) where
  state : TrainState GP DP GO DO
  trace : List (Ev GP DP GO DO)
  err : Option PyError

/-- One iteration of the epoch loop of `train`, for 0-based `epoch` index `e`:
run all batches; `generate_and_save_images(generator, epoch+1, seed)`; since
`(epoch + 1) % 1 == 0` is checked, `checkpoint.save(file_prefix=checkpoint_prefix)`,
`print('Saving model...')` and `tf.saved_model.save(generator, './models/1/')`;
then the three report lines, whose format arguments are evaluated before
printing: `gen_loss_sum / batch_num` raises `ZeroDivisionError` when
`batch_num = 0`, and `disc_loss / batch_num` raises `NameError` when the batch
loop never bound `disc_loss`. -/
def runEpoch (c : Collab Img S GP DP GO DO GG DG) (sd : Noise)
    (batches : List (List Img)) (dataset_size batch_size : Nat)
    (st : TrainState GP DP GO DO) (e : Nat) : RunResult GP DP GO DO :=
  let B := runBatches c st batches
  let n := batchNum dataset_size batch_size
  let tr1 := B.trace ++ [Ev.sampleEv B.state.gp (e + 1) sd]
  let tr2 := if (e + 1) % 1 = 0 then
      tr1 ++ [Ev.checkpointSaveEv ckptPfx B.state.gp B.state.dp B.state.go B.state.dOpt,
              Ev.printSaving, Ev.exportEv modelExportPath B.state.gp]
    else tr1
  let tr3 := tr2 ++ [Ev.printTime (e + 1)]
  if n = 0 then ⟨B.state, tr3, some PyError.zeroDivision⟩
  else
    let tr4 := tr3 ++ [Ev.printGenLoss (B.genSum / (n : ℚ))]
    match B.lastDisc with
    | none => ⟨B.state, tr4, some PyError.nameErrorDiscLoss⟩
    | some d => ⟨B.state, tr4 ++ [Ev.printDiscLoss (d / (n : ℚ))], none⟩

/-- The epoch loop `for epoch in range(epochs)`, over the list of 0-based epoch
indices; an uncaught exception aborts the remaining epochs. -/
def runEpochsFrom (c : Collab Img S GP DP GO DO GG DG) (sd : Noise)
    (batches : List (List Img)) (dataset_size batch_size : Nat) :
    TrainState GP DP GO DO → List Nat → RunResult GP DP GO DO
  | st, [] => ⟨st, [], none⟩
  | st, e :: es =>
    let R := runEpoch c sd batches dataset_size batch_size st e
    match R.err with
    | some er => ⟨R.state, R.trace, some er⟩
    | none =>
      let Rs := runEpochsFrom c sd batches dataset_size batch_size R.state es
      ⟨Rs.state, R.trace ++ Rs.trace, Rs.err⟩

/-- `train(dataset, epochs, dataset_size, batch_size)`: the epoch loop followed,
when no exception was raised, by the final
`generate_and_save_images(generator, epochs, seed)`. -/
def train (c : Collab Img S GP DP GO DO GG DG) (sd : Noise)
    (st : TrainState GP DP GO DO) (batches : List (List Img))
    (epochs dataset_size batch_size : Nat) : RunResult GP DP GO DO :=
  let R := runEpochsFrom c sd batches dataset_size batch_size st (List.range epochs)
  match R.err with
  | some _ => R
  | none => ⟨R.state, R.trace ++ [Ev.sampleEv R.state.gp epochs sd], none⟩

/-- The `(label, seed)` payloads of the `generate_and_save_images` calls in a
trace, in order. -/
def sampleLS (tr : List (Ev GP DP GO DO)) : List (Nat × Noise) :=
  tr.filterMap fun ev => match ev with
    | Ev.sampleEv _ l s => some (l, s)
    | _ => none

/-- The noise draw of each `train_step` in a trace, in order. -/
def stepNoises (tr : List (Ev GP DP GO DO)) : List Noise :=
  tr.filterMap fun ev => match ev with
    | Ev.stepEv n _ _ => some n
    | _ => none

/-- The payloads of the `checkpoint.save` calls in a trace, in order. -/
def ckptPayloads (tr : List (Ev GP DP GO DO)) : List (String × GP × DP × GO × DO) :=
  tr.filterMap fun ev => match ev with
    | Ev.checkpointSaveEv p g d go dOpt => some (p, g, d, go, dOpt)
    | _ => none

/-- The payloads of the `tf.saved_model.save` calls in a trace, in order. -/
def exportPayloads (tr : List (Ev GP DP GO DO)) : List (String × GP) :=
  tr.filterMap fun ev => match ev with
    | Ev.exportEv p g => some (p, g)
    | _ => none

/-- The values printed by the `Generator loss is ...` report lines, in order. -/
def printedGen (tr : List (Ev GP DP GO DO)) : List ℚ :=
  tr.filterMap fun ev => match ev with
    | Ev.printGenLoss q => some q
    | _ => none

/-- The values printed by the `Discriminator loss is ...` report lines, in order. -/
def printedDisc (tr : List (Ev GP DP GO DO)) : List ℚ :=
  tr.filterMap fun ev => match ev with
    | Ev.printDiscLoss q => some q
    | _ => none

/-- The events emitted by a list of `train_step` results. -/
def stepEvsOf : List (StepResult S GP DP GO DO) → List (Ev GP DP GO DO)
  | [] => []
  | R :: rest =>
    Ev.stepEv R.noiseUsed R.genLoss R.discLoss :: Ev.pbarUpdate :: stepEvsOf rest

/-- The value of the Python loop variable `disc_loss` after overwriting an
initial value `o` with each element of `xs` in turn. -/
def lastOr : List ℚ → Option ℚ → Option ℚ
  | [], o => o
  | x :: xs, _ => lastOr xs (some x)

/-- Concrete executable instantiation of the collaborators, used to exercise
the loop on explicit inputs. -/
def natCollab : Collab Nat Nat Nat Nat Nat Nat Nat Nat where
  genForward := fun gp n => List.replicate n.rows (gp + n.ctr)
  discForward := fun dp xs => dp + xs.length + xs.sum
  gen_loss_fn := fun s => (s : ℚ)
  disc_loss_fn := fun r f => (r : ℚ) - (f : ℚ) + 1
  gradG := fun _ gp => gp + 1
  gradD := fun _ dp => dp + 2
  genApply := fun go g gp => (go + g, gp + g)
  discApply := fun dOpt g dp => (dOpt + g, dp + g)

/-- A concrete startup state: random stream position 1, as after drawing the
visualization seed at position 0. -/
def st0 : TrainState Nat Nat Nat Nat := ⟨0, 0, 0, 0, 1⟩

/-- The concrete startup visualization seed. -/
def sd0 : Noise := (setupSeed 0).1

section Lemmas

variable (c : Collab Img S GP DP GO DO GG DG)

/-- Characterization of the batch-loop fold in terms of the step-result list. -/
theorem runBatchesAux_eq : ∀ (bs : List (List Img)) (st : TrainState GP DP GO DO)
    (gs ds : ℚ) (ld : Option ℚ) (tr : List (Ev GP DP GO DO)),
    runBatchesAux c st gs ds ld tr bs =
      { state := statesEnd c st bs,
        genSum := gs + ((stepResults c st bs).map StepResult.genLoss).sum,
        discSum := ds + ((stepResults c st bs).map StepResult.discLoss).sum,
        lastDisc := lastOr ((stepResults c st bs).map StepResult.discLoss) ld,
        trace := tr ++ stepEvsOf (stepResults c st bs) }
  | [], st, gs, ds, ld, tr => by
    simp [runBatchesAux, statesEnd, stepResults, stepEvsOf, lastOr]
  | b :: rest, st, gs, ds, ld, tr => by
    rw [runBatchesAux, runBatchesAux_eq rest]
    simp [statesEnd, stepResults, stepEvsOf, lastOr, add_assoc]

/-- The batch loop, characterized in terms of the step-result list. -/
theorem runBatches_eq (bs : List (List Img)) (st : TrainState GP DP GO DO) :
    runBatches c st bs =
      { state := statesEnd c st bs,
        genSum := ((stepResults c st bs).map StepResult.genLoss).sum,
        discSum := ((stepResults c st bs).map StepResult.discLoss).sum,
        lastDisc := lastOr ((stepResults c st bs).map StepResult.discLoss) none,
        trace := stepEvsOf (stepResults c st bs) } := by
  rw [runBatches, runBatchesAux_eq]
  simp

/-- `lastOr` returns the last element when the list is nonempty. -/
theorem lastOr_eq_getLast? : ∀ (xs : List ℚ) (o : Option ℚ), xs ≠ [] →
    lastOr xs o = xs.getLast?
  | [], _, h => absurd rfl h
  | [x], o, _ => by simp [lastOr]
  | x :: y :: xs, o, _ => by
    rw [lastOr, lastOr_eq_getLast? (y :: xs) (some x) (by simp)]
    simp [List.getLast?_cons_cons]

/-- Step events contain no sampling events. -/
theorem sampleLS_stepEvsOf : ∀ (l : List (StepResult S GP DP GO DO)),
    sampleLS (stepEvsOf l) = []
  | [] => rfl
  | R :: rest => by
    have ih := sampleLS_stepEvsOf rest
    simp only [stepEvsOf, sampleLS, List.filterMap_cons] at ih ⊢
    exact ih

/-- The step events of one epoch expose exactly the noise draws of the steps. -/
theorem stepNoises_stepEvsOf : ∀ (l : List (StepResult S GP DP GO DO)),
    stepNoises (stepEvsOf l) = l.map StepResult.noiseUsed
  | [] => rfl
  | R :: rest => by
    have ih := stepNoises_stepEvsOf rest
    simp only [stepEvsOf, stepNoises, List.filterMap_cons, List.map_cons] at ih ⊢
    rw [ih]

/-- Step events contain no checkpoint events. -/
theorem ckptPayloads_stepEvsOf : ∀ (l : List (StepResult S GP DP GO DO)),
    ckptPayloads (stepEvsOf l) = []
  | [] => rfl
  | R :: rest => by
    have ih := ckptPayloads_stepEvsOf rest
    simp only [stepEvsOf, ckptPayloads, List.filterMap_cons] at ih ⊢
    exact ih

/-- Step events contain no export events. -/
theorem exportPayloads_stepEvsOf : ∀ (l : List (StepResult S GP DP GO DO)),
    exportPayloads (stepEvsOf l) = []
  | [] => rfl
  | R :: rest => by
    have ih := exportPayloads_stepEvsOf rest
    simp only [stepEvsOf, exportPayloads, List.filterMap_cons] at ih ⊢
    exact ih

/-- Step events contain no generator-loss report lines. -/
theorem printedGen_stepEvsOf : ∀ (l : List (StepResult S GP DP GO DO)),
    printedGen (stepEvsOf l) = []
  | [] => rfl
  | R :: rest => by
    have ih := printedGen_stepEvsOf rest
    simp only [stepEvsOf, printedGen, List.filterMap_cons] at ih ⊢
    exact ih

/-- Step events contain no discriminator-loss report lines. -/
theorem printedDisc_stepEvsOf : ∀ (l : List (StepResult S GP DP GO DO)),
    printedDisc (stepEvsOf l) = []
  | [] => rfl
  | R :: rest => by
    have ih := printedDisc_stepEvsOf rest
    simp only [stepEvsOf, printedDisc, List.filterMap_cons] at ih ⊢
    exact ih

/-- One `train_step` per batch. -/
theorem stepResults_length : ∀ (bs : List (List Img)) (st : TrainState GP DP GO DO),
    (stepResults c st bs).length = bs.length
  | [], _ => rfl
  | b :: rest, st => by
    simp only [stepResults, List.length_cons, stepResults_length rest]

/-- The noise-draw counters of the steps of one epoch are the consecutive
stream positions starting at the incoming one. -/
theorem stepResults_ctr : ∀ (bs : List (List Img)) (st : TrainState GP DP GO DO),
    (stepResults c st bs).map (fun R => R.noiseUsed.ctr) = List.range' st.rng bs.length
  | [], _ => rfl
  | b :: rest, st => by
    have ih := stepResults_ctr rest (nextState (trainStep c st b))
    simp only [stepResults, List.map_cons, List.length_cons, List.range'_succ,
      List.cons.injEq]
    refine ⟨rfl, ?_⟩
    simpa [nextState, trainStep, sampleNormal] using ih

/-- The batch loop advances the random stream by one position per batch. -/
theorem statesEnd_rng : ∀ (bs : List (List Img)) (st : TrainState GP DP GO DO),
    (statesEnd c st bs).rng = st.rng + bs.length
  | [], _ => by simp [statesEnd]
  | b :: rest, st => by
    rw [statesEnd, statesEnd_rng rest]
    simp only [nextState, trainStep, sampleNormal, List.length_cons]
    omega

/-- The trace of one epoch, in every outcome: the step events, then the
sampling call, the checkpoint save, the `Saving model...` line, the generator
export and the epoch-time line, followed only by report-value lines. -/
theorem runEpoch_shape (sd : Noise) (batches : List (List Img)) (ds bs : Nat)
    (st : TrainState GP DP GO DO) (e : Nat) :
    ∃ tail, (runEpoch c sd batches ds bs st e).trace =
      stepEvsOf (stepResults c st batches) ++
        (Ev.sampleEv (statesEnd c st batches).gp (e + 1) sd ::
         Ev.checkpointSaveEv ckptPfx (statesEnd c st batches).gp (statesEnd c st batches).dp
           (statesEnd c st batches).go (statesEnd c st batches).dOpt ::
         Ev.printSaving ::
         Ev.exportEv modelExportPath (statesEnd c st batches).gp ::
         Ev.printTime (e + 1) :: tail) ∧
      (∀ ev ∈ tail, (∃ q, ev = Ev.printGenLoss q) ∨ (∃ q, ev = Ev.printDiscLoss q)) ∧
      (runEpoch c sd batches ds bs st e).state = statesEnd c st batches := by
  rw [runEpoch, runBatches_eq]
  simp only [Nat.mod_one, if_pos rfl]
  by_cases hn : batchNum ds bs = 0
  · refine ⟨[], ?_⟩
    simp [hn]
  · rw [if_neg hn]
    cases h : lastOr ((stepResults c st batches).map StepResult.discLoss) none with
    | none =>
      refine ⟨[Ev.printGenLoss (((stepResults c st batches).map StepResult.genLoss).sum /
        ((batchNum ds bs : ℚ)))], ?_⟩
      simp
    | some d =>
      refine ⟨[Ev.printGenLoss (((stepResults c st batches).map StepResult.genLoss).sum /
        ((batchNum ds bs : ℚ))), Ev.printDiscLoss (d / ((batchNum ds bs : ℚ)))], ?_⟩
      simp

/-- Full characterization of one epoch that runs at least one batch with a
nonzero computed batch count: it completes without exception and its trace is
fully explicit; `d` is the discriminator loss returned by the last
`train_step` of the epoch. -/
theorem runEpoch_success (sd : Noise) (batches : List (List Img)) (ds bs : Nat)
    (st : TrainState GP DP GO DO) (e : Nat)
    (hb : batches ≠ []) (hn : batchNum ds bs ≠ 0) :
    ∃ d, ((stepResults c st batches).map StepResult.discLoss).getLast? = some d ∧
    runEpoch c sd batches ds bs st e =
      ⟨statesEnd c st batches,
       stepEvsOf (stepResults c st batches) ++
         [Ev.sampleEv (statesEnd c st batches).gp (e + 1) sd,
          Ev.checkpointSaveEv ckptPfx (statesEnd c st batches).gp (statesEnd c st batches).dp
            (statesEnd c st batches).go (statesEnd c st batches).dOpt,
          Ev.printSaving,
          Ev.exportEv modelExportPath (statesEnd c st batches).gp,
          Ev.printTime (e + 1),
          Ev.printGenLoss (((stepResults c st batches).map StepResult.genLoss).sum /
            ((batchNum ds bs : ℚ))),
          Ev.printDiscLoss (d / ((batchNum ds bs : ℚ)))],
       none⟩ := by
  have h1 : stepResults c st batches ≠ [] := by
    intro h
    apply hb
    have h2 := stepResults_length c batches st
    rw [h] at h2
    exact List.length_eq_zero.mp h2.symm
  have hmap : (stepResults c st batches).map StepResult.discLoss ≠ [] := by
    simpa using h1
  cases hd : ((stepResults c st batches).map StepResult.discLoss).getLast? with
  | none => exact absurd (List.getLast?_eq_none_iff.mp hd) hmap
  | some d =>
    refine ⟨d, rfl, ?_⟩
    rw [runEpoch, runBatches_eq]
    simp only [Nat.mod_one, if_pos rfl, if_neg hn]
    rw [lastOr_eq_getLast? _ _ hmap, hd]
    simp

/-- In every outcome, the epoch body leaves the training state exactly as the
batch loop left it: sampling, checkpointing, exporting and reporting do not
touch it. -/
theorem runEpoch_state (sd : Noise) (batches : List (List Img)) (ds bs : Nat)
    (st : TrainState GP DP GO DO) (e : Nat) :
    (runEpoch c sd batches ds bs st e).state = statesEnd c st batches :=
  (runEpoch_shape c sd batches ds bs st e).choose_spec.2.2

/-- In every outcome, one epoch makes exactly one sampling call, with label
`epoch + 1` and the seed it was given. -/
theorem runEpoch_sampleLS (sd : Noise) (batches : List (List Img)) (ds bs : Nat)
    (st : TrainState GP DP GO DO) (e : Nat) :
    sampleLS (runEpoch c sd batches ds bs st e).trace = [(e + 1, sd)] := by
  obtain ⟨tail, htr, htail, -⟩ := runEpoch_shape c sd batches ds bs st e
  have h := sampleLS_stepEvsOf (stepResults c st batches)
  have h0 : sampleLS tail = [] := by
    refine List.filterMap_eq_nil_iff.mpr ?_
    intro ev hev
    rcases htail ev hev with ⟨q, rfl⟩ | ⟨q, rfl⟩ <;> rfl
  rw [htr]
  simp only [sampleLS, List.filterMap_append, List.filterMap_cons] at h h0 ⊢
  rw [h, h0]
  simp

/-- In every outcome, the step noises of one epoch are exactly the per-batch
draws of its `train_step` calls. -/
theorem runEpoch_stepNoises (sd : Noise) (batches : List (List Img)) (ds bs : Nat)
    (st : TrainState GP DP GO DO) (e : Nat) :
    stepNoises (runEpoch c sd batches ds bs st e).trace =
      (stepResults c st batches).map StepResult.noiseUsed := by
  obtain ⟨tail, htr, htail, -⟩ := runEpoch_shape c sd batches ds bs st e
  have h := stepNoises_stepEvsOf (stepResults c st batches)
  have h0 : stepNoises tail = [] := by
    refine List.filterMap_eq_nil_iff.mpr ?_
    intro ev hev
    rcases htail ev hev with ⟨q, rfl⟩ | ⟨q, rfl⟩ <;> rfl
  rw [htr]
  simp only [stepNoises, List.filterMap_append, List.filterMap_cons] at h h0 ⊢
  rw [h, h0]
  simp

/-- In every outcome, one epoch performs exactly one checkpoint save, under the
rolling prefix and carrying the full post-batch-loop training state. -/
theorem runEpoch_ckpt (sd : Noise) (batches : List (List Img)) (ds bs : Nat)
    (st : TrainState GP DP GO DO) (e : Nat) :
    ckptPayloads (runEpoch c sd batches ds bs st e).trace =
      [(ckptPfx, (statesEnd c st batches).gp, (statesEnd c st batches).dp,
        (statesEnd c st batches).go, (statesEnd c st batches).dOpt)] := by
  obtain ⟨tail, htr, htail, -⟩ := runEpoch_shape c sd batches ds bs st e
  have h := ckptPayloads_stepEvsOf (stepResults c st batches)
  have h0 : ckptPayloads tail = [] := by
    refine List.filterMap_eq_nil_iff.mpr ?_
    intro ev hev
    rcases htail ev hev with ⟨q, rfl⟩ | ⟨q, rfl⟩ <;> rfl
  rw [htr]
  simp only [ckptPayloads, List.filterMap_append, List.filterMap_cons] at h h0 ⊢
  rw [h, h0]
  simp

/-- In every outcome, one epoch performs exactly one generator export, to the
fixed serving path, carrying the generator parameters alone. -/
theorem runEpoch_export (sd : Noise) (batches : List (List Img)) (ds bs : Nat)
    (st : TrainState GP DP GO DO) (e : Nat) :
    exportPayloads (runEpoch c sd batches ds bs st e).trace =
      [(modelExportPath, (statesEnd c st batches).gp)] := by
  obtain ⟨tail, htr, htail, -⟩ := runEpoch_shape c sd batches ds bs st e
  have h := exportPayloads_stepEvsOf (stepResults c st batches)
  have h0 : exportPayloads tail = [] := by
    refine List.filterMap_eq_nil_iff.mpr ?_
    intro ev hev
    rcases htail ev hev with ⟨q, rfl⟩ | ⟨q, rfl⟩ <;> rfl
  rw [htr]
  simp only [exportPayloads, List.filterMap_append, List.filterMap_cons] at h h0 ⊢
  rw [h, h0]
  simp

/-- `sampleLS` distributes over trace concatenation. -/
theorem sampleLS_append (t1 t2 : List (Ev GP DP GO DO)) :
    sampleLS (t1 ++ t2) = sampleLS t1 ++ sampleLS t2 := by
  simp [sampleLS]

/-- `stepNoises` distributes over trace concatenation. -/
theorem stepNoises_append (t1 t2 : List (Ev GP DP GO DO)) :
    stepNoises (t1 ++ t2) = stepNoises t1 ++ stepNoises t2 := by
  simp [stepNoises]

/-- `ckptPayloads` distributes over trace concatenation. -/
theorem ckptPayloads_append (t1 t2 : List (Ev GP DP GO DO)) :
    ckptPayloads (t1 ++ t2) = ckptPayloads t1 ++ ckptPayloads t2 := by
  simp [ckptPayloads]

/-- `exportPayloads` distributes over trace concatenation. -/
theorem exportPayloads_append (t1 t2 : List (Ev GP DP GO DO)) :
    exportPayloads (t1 ++ t2) = exportPayloads t1 ++ exportPayloads t2 := by
  simp [exportPayloads]

/-- `printedGen` distributes over trace concatenation. -/
theorem printedGen_append (t1 t2 : List (Ev GP DP GO DO)) :
    printedGen (t1 ++ t2) = printedGen t1 ++ printedGen t2 := by
  simp [printedGen]

/-- `printedDisc` distributes over trace concatenation. -/
theorem printedDisc_append (t1 t2 : List (Ev GP DP GO DO)) :
    printedDisc (t1 ++ t2) = printedDisc t1 ++ printedDisc t2 := by
  simp [printedDisc]

/-- An epoch over at least one batch with nonzero batch count raises no
exception. -/
theorem runEpoch_err_none (sd : Noise) (batches : List (List Img)) (ds bs : Nat)
    (st : TrainState GP DP GO DO) (e : Nat)
    (hb : batches ≠ []) (hn : batchNum ds bs ≠ 0) :
    (runEpoch c sd batches ds bs st e).err = none := by
  obtain ⟨d, -, heq⟩ := runEpoch_success c sd batches ds bs st e hb hn
  rw [heq]

/-- Unfolding of the epoch loop when the first epoch completes. -/
theorem runEpochsFrom_cons_ok (sd : Noise) (batches : List (List Img)) (ds bs : Nat)
    (st : TrainState GP DP GO DO) (e : Nat) (es : List Nat)
    (h : (runEpoch c sd batches ds bs st e).err = none) :
    runEpochsFrom c sd batches ds bs st (e :: es) =
      ⟨(runEpochsFrom c sd batches ds bs (runEpoch c sd batches ds bs st e).state es).state,
       (runEpoch c sd batches ds bs st e).trace ++
         (runEpochsFrom c sd batches ds bs (runEpoch c sd batches ds bs st e).state es).trace,
       (runEpochsFrom c sd batches ds bs (runEpoch c sd batches ds bs st e).state es).err⟩ := by
  rw [runEpochsFrom]
  split
  · next er her => rw [h] at her; cases her
  · rfl

/-- Unfolding of the epoch loop when the first epoch raises. -/
theorem runEpochsFrom_cons_err (sd : Noise) (batches : List (List Img)) (ds bs : Nat)
    (st : TrainState GP DP GO DO) (e : Nat) (es : List Nat) (er : PyError)
    (h : (runEpoch c sd batches ds bs st e).err = some er) :
    runEpochsFrom c sd batches ds bs st (e :: es) =
      ⟨(runEpoch c sd batches ds bs st e).state,
       (runEpoch c sd batches ds bs st e).trace, some er⟩ := by
  rw [runEpochsFrom]
  split
  · next er' her => rw [h] at her; cases her; rfl
  · next her => rw [h] at her; cases her

/-- A run whose every epoch processes at least one batch with nonzero batch
count: no exception, one sampling call per epoch (with label `epoch + 1` and
the given seed, in order), one checkpoint save and one export per epoch. -/
theorem runEpochsFrom_success (sd : Noise) (batches : List (List Img)) (ds bs : Nat)
    (hb : batches ≠ []) (hn : batchNum ds bs ≠ 0) :
    ∀ (es : List Nat) (st : TrainState GP DP GO DO),
    (runEpochsFrom c sd batches ds bs st es).err = none ∧
    sampleLS (runEpochsFrom c sd batches ds bs st es).trace =
      es.map (fun e => (e + 1, sd)) ∧
    (ckptPayloads (runEpochsFrom c sd batches ds bs st es).trace).length = es.length ∧
    (exportPayloads (runEpochsFrom c sd batches ds bs st es).trace).length = es.length
  | [], st => by
    simp [runEpochsFrom, sampleLS, ckptPayloads, exportPayloads]
  | e :: es, st => by
    have h := runEpoch_err_none c sd batches ds bs st e hb hn
    have ih := runEpochsFrom_success sd batches ds bs hb hn es
      (runEpoch c sd batches ds bs st e).state
    rw [runEpochsFrom_cons_ok c sd batches ds bs st e es h]
    simp only [sampleLS_append, ckptPayloads_append, exportPayloads_append,
      List.length_append, List.map_cons]
    rw [runEpoch_sampleLS, runEpoch_ckpt, runEpoch_export]
    simp only [ih.1, ih.2.1, ih.2.2.1, ih.2.2.2]
    simp [Nat.add_comm]

/-- Over any run of the epoch loop (aborted or not), the noise draws of all
`train_step` calls occupy consecutive positions of the random stream starting
at the incoming position, and the stream advances by exactly that many
positions. -/
theorem runEpochsFrom_noises (sd : Noise) (batches : List (List Img)) (ds bs : Nat) :
    ∀ (es : List Nat) (st : TrainState GP DP GO DO),
    ∃ k, (stepNoises (runEpochsFrom c sd batches ds bs st es).trace).map Noise.ctr =
        List.range' st.rng k ∧
      (runEpochsFrom c sd batches ds bs st es).state.rng = st.rng + k
  | [], st => ⟨0, by simp [runEpochsFrom, stepNoises]⟩
  | e :: es, st => by
    have hctr : ((stepResults c st batches).map StepResult.noiseUsed).map Noise.ctr =
        List.range' st.rng batches.length := by
      rw [List.map_map]
      exact stepResults_ctr c batches st
    have hrng : (statesEnd c st batches).rng = st.rng + batches.length :=
      statesEnd_rng c batches st
    cases h : (runEpoch c sd batches ds bs st e).err with
    | some er =>
      refine ⟨batches.length, ?_, ?_⟩
      · rw [runEpochsFrom_cons_err c sd batches ds bs st e es er h]
        rw [runEpoch_stepNoises]
        exact hctr
      · rw [runEpochsFrom_cons_err c sd batches ds bs st e es er h]
        rw [runEpoch_state]
        exact hrng
    | none =>
      obtain ⟨k, h1, h2⟩ := runEpochsFrom_noises sd batches ds bs es
        (runEpoch c sd batches ds bs st e).state
      rw [runEpoch_state c sd batches ds bs st e, hrng] at h1 h2
      refine ⟨batches.length + k, ?_, ?_⟩
      · rw [runEpochsFrom_cons_ok c sd batches ds bs st e es h]
        rw [stepNoises_append, List.map_append, runEpoch_stepNoises, hctr,
          runEpoch_state c sd batches ds bs st e, h1]
        have := List.range'_append st.rng batches.length k 1
        simp only [one_mul] at this
        exact this.trans (by rw [Nat.add_comm])
      · rw [runEpochsFrom_cons_ok c sd batches ds bs st e es h]
        show (runEpochsFrom c sd batches ds bs
          (runEpoch c sd batches ds bs st e).state es).state.rng = _
        rw [runEpoch_state c sd batches ds bs st e, h2]
        omega

/-- Over any run of the epoch loop (aborted or not), every sampling call
receives exactly the seed the loop was given. -/
theorem runEpochsFrom_seeds (sd : Noise) (batches : List (List Img)) (ds bs : Nat) :
    ∀ (es : List Nat) (st : TrainState GP DP GO DO),
    ∀ p ∈ sampleLS (runEpochsFrom c sd batches ds bs st es).trace, p.2 = sd
  | [], st => by simp [runEpochsFrom, sampleLS]
  | e :: es, st => by
    intro p hp
    cases h : (runEpoch c sd batches ds bs st e).err with
    | some er =>
      rw [runEpochsFrom_cons_err c sd batches ds bs st e es er h] at hp
      rw [runEpoch_sampleLS] at hp
      rw [List.mem_singleton] at hp
      rw [hp]
    | none =>
      rw [runEpochsFrom_cons_ok c sd batches ds bs st e es h] at hp
      rw [sampleLS_append, runEpoch_sampleLS] at hp
      rcases List.mem_append.mp hp with h1 | h2
      · rw [List.mem_singleton] at h1
        rw [h1]
      · exact runEpochsFrom_seeds sd batches ds bs es
          (runEpoch c sd batches ds bs st e).state p h2

/-- Whenever the computed batch count is nonzero, the epoch's generator-loss
report line is printed and carries the accumulated generator-loss sum divided
by the batch count — whether or not the discriminator-loss line is reached. -/
theorem runEpoch_printedGen (sd : Noise) (batches : List (List Img)) (ds bs : Nat)
    (st : TrainState GP DP GO DO) (e : Nat) (hn : batchNum ds bs ≠ 0) :
    printedGen (runEpoch c sd batches ds bs st e).trace =
      [((stepResults c st batches).map StepResult.genLoss).sum / (batchNum ds bs : ℚ)] := by
  have hgen := printedGen_stepEvsOf (stepResults c st batches)
  rw [runEpoch, runBatches_eq]
  simp only [Nat.mod_one, if_pos rfl, if_neg hn, if_true]
  cases h : lastOr ((stepResults c st batches).map StepResult.discLoss) none with
  | none =>
    simp only [printedGen, List.filterMap_append, List.filterMap_cons, if_true] at hgen ⊢
    rw [hgen]
    simp
  | some d =>
    simp only [printedGen, List.filterMap_append, List.filterMap_cons, if_true] at hgen ⊢
    rw [hgen]
    simp

/-- Unfolding of `train` when the epoch loop completes. -/
theorem train_ok (sd : Noise) (st : TrainState GP DP GO DO) (batches : List (List Img))
    (E ds bs : Nat)
    (h : (runEpochsFrom c sd batches ds bs st (List.range E)).err = none) :
    train c sd st batches E ds bs =
      ⟨(runEpochsFrom c sd batches ds bs st (List.range E)).state,
       (runEpochsFrom c sd batches ds bs st (List.range E)).trace ++
         [Ev.sampleEv (runEpochsFrom c sd batches ds bs st (List.range E)).state.gp E sd],
       none⟩ := by
  rw [train]
  split
  · next er her => rw [h] at her; cases her
  · rfl

/-- Unfolding of `train` when the epoch loop raises: the final sampling call is
skipped. -/
theorem train_err (sd : Noise) (st : TrainState GP DP GO DO) (batches : List (List Img))
    (E ds bs : Nat) (er : PyError)
    (h : (runEpochsFrom c sd batches ds bs st (List.range E)).err = some er) :
    train c sd st batches E ds bs =
      runEpochsFrom c sd batches ds bs st (List.range E) := by
  rw [train]
  split
  · rfl
  · next her => rw [h] at her; cases her

end Lemmas

section Claims

variable {Img S GP DP GO DO GG DG : Type}

/-- C2: In every train-step, the generator update (new optimizer state and new
parameters) is `apply_gradients` of the gradient of the generator loss with
respect to the generator parameters, the discriminator update likewise from the
discriminator loss with respect to the discriminator parameters; and the two
computations are independent: replacing the discriminator-side loss, gradient
and optimizer leaves the generator update untouched, and replacing the
generator-side loss, gradient and optimizer leaves the discriminator update
untouched — no cross-contamination of gradients between the networks. -/
theorem C2_gradient_isolation (c : Collab Img S GP DP GO DO GG DG)
    (st : TrainState GP DP GO DO) (images : List Img)
    (dlf : S → S → ℚ) (gdD : (DP → ℚ) → DP → DG) (dApp : DO → DG → DP → DO × DP)
    (glf : S → ℚ) (gdG : (GP → ℚ) → GP → GG) (gApp : GO → GG → GP → GO × GP) :
    ((trainStep { c with disc_loss_fn := dlf, gradD := gdD, discApply := dApp }
        st images).gp' = (trainStep c st images).gp' ∧
     (trainStep { c with disc_loss_fn := dlf, gradD := gdD, discApply := dApp }
        st images).go' = (trainStep c st images).go') ∧
    ((trainStep { c with gen_loss_fn := glf, gradG := gdG, genApply := gApp }
        st images).dp' = (trainStep c st images).dp' ∧
     (trainStep { c with gen_loss_fn := glf, gradG := gdG, genApply := gApp }
        st images).dOpt' = (trainStep c st images).dOpt') ∧
    ((trainStep c st images).go', (trainStep c st images).gp') =
      c.genApply st.go
        (c.gradG (fun gp => c.gen_loss_fn (c.discForward st.dp
          (c.genForward gp (trainStep c st images).noiseUsed))) st.gp) st.gp ∧
    ((trainStep c st images).dOpt', (trainStep c st images).dp') =
      c.discApply st.dOpt
        (c.gradD (fun dp => c.disc_loss_fn (c.discForward dp images)
          (c.discForward dp (c.genForward st.gp (trainStep c st images).noiseUsed))) st.dp)
        st.dp :=
  ⟨⟨rfl, rfl⟩, ⟨rfl, rfl⟩, rfl, rfl⟩

/-- C4: a train-step on any batch of size at least one (a final partial batch
included) draws one fresh noise tensor of shape
`[images.length, noise_dim]` at the current stream position, taking the batch
size from the batch itself, advances the stream by one, and completes,
returning the two scalar losses of that batch. -/
theorem C4_fresh_noise_shape (c : Collab Img S GP DP GO DO GG DG)
    (st : TrainState GP DP GO DO) (images : List Img)
    (h : 1 ≤ images.length) :
    (trainStep c st images).noiseUsed = ⟨images.length, noise_dim, st.rng⟩ ∧
    (trainStep c st images).rng' = st.rng + 1 ∧
    (trainStep c st images).genLoss =
      c.gen_loss_fn (trainStep c st images).fakeOut ∧
    (trainStep c st images).discLoss =
      c.disc_loss_fn (trainStep c st images).realOut (trainStep c st images).fakeOut :=
  ⟨rfl, rfl, rfl, rfl⟩

/-- C4 witness at a concrete partial batch of size 1. -/
theorem C4_fresh_noise_shape_witness :
    (trainStep natCollab st0 [5]).noiseUsed = ⟨[5].length, noise_dim, st0.rng⟩ ∧
    (trainStep natCollab st0 [5]).rng' = st0.rng + 1 ∧
    (trainStep natCollab st0 [5]).genLoss =
      natCollab.gen_loss_fn (trainStep natCollab st0 [5]).fakeOut ∧
    (trainStep natCollab st0 [5]).discLoss =
      natCollab.disc_loss_fn (trainStep natCollab st0 [5]).realOut
        (trainStep natCollab st0 [5]).fakeOut :=
  C4_fresh_noise_shape natCollab st0 [5] (by decide)

/-- C5: in every train-step the generator loss is a function of the
discriminator's fake-image output only, the discriminator loss is applied to
the real-image output and the fake-image output, and both losses use the
fake-image output of the single forward pass made at the pre-update parameters
(the discriminator is not re-evaluated on regenerated images after any update);
in particular the generator loss and the fake output are unchanged under any
replacement of the real batch by one of the same size. -/
theorem C5_single_forward_pass (c : Collab Img S GP DP GO DO GG DG)
    (st : TrainState GP DP GO DO) (images : List Img) :
    (trainStep c st images).genLoss =
      c.gen_loss_fn (trainStep c st images).fakeOut ∧
    (trainStep c st images).discLoss =
      c.disc_loss_fn (trainStep c st images).realOut (trainStep c st images).fakeOut ∧
    (trainStep c st images).fakeOut =
      c.discForward st.dp (c.genForward st.gp (trainStep c st images).noiseUsed) ∧
    (trainStep c st images).realOut = c.discForward st.dp images ∧
    (∀ images2 : List Img, images2.length = images.length →
      (trainStep c st images2).genLoss = (trainStep c st images).genLoss ∧
      (trainStep c st images2).fakeOut = (trainStep c st images).fakeOut) := by
  refine ⟨rfl, rfl, rfl, rfl, ?_⟩
  intro images2 hlen
  constructor <;> simp [trainStep, sampleNormal, hlen]

/-- C5 witness: two distinct same-size real batches at a concrete state. -/
theorem C5_single_forward_pass_witness :
    (trainStep natCollab st0 [4, 6]).genLoss =
      natCollab.gen_loss_fn (trainStep natCollab st0 [4, 6]).fakeOut ∧
    (trainStep natCollab st0 [4, 6]).discLoss =
      natCollab.disc_loss_fn (trainStep natCollab st0 [4, 6]).realOut
        (trainStep natCollab st0 [4, 6]).fakeOut ∧
    (trainStep natCollab st0 [4, 6]).fakeOut =
      natCollab.discForward st0.dp
        (natCollab.genForward st0.gp (trainStep natCollab st0 [4, 6]).noiseUsed) ∧
    (trainStep natCollab st0 [4, 6]).realOut = natCollab.discForward st0.dp [4, 6] ∧
    (∀ images2 : List Nat, images2.length = [4, 6].length →
      (trainStep natCollab st0 images2).genLoss = (trainStep natCollab st0 [4, 6]).genLoss ∧
      (trainStep natCollab st0 images2).fakeOut = (trainStep natCollab st0 [4, 6]).fakeOut) :=
  C5_single_forward_pass natCollab st0 [4, 6]

/-- C10: `train` with `epochs = 0` performs no train-step, no checkpoint save
and no export, but still makes exactly one sampling call, with the generator,
epoch label `0` and the fixed seed, and returns without error, leaving the
state untouched. -/
theorem C10_zero_epochs (c : Collab Img S GP DP GO DO GG DG) (sd : Noise)
    (st : TrainState GP DP GO DO) (batches : List (List Img)) (ds bs : Nat) :
    train c sd st batches 0 ds bs =
      ⟨st, [Ev.sampleEv st.gp 0 sd], none⟩ ∧
    stepNoises (train c sd st batches 0 ds bs).trace = [] ∧
    ckptPayloads (train c sd st batches 0 ds bs).trace = [] ∧
    exportPayloads (train c sd st batches 0 ds bs).trace = [] ∧
    sampleLS (train c sd st batches 0 ds bs).trace = [(0, sd)] :=
  ⟨rfl, rfl, rfl, rfl, rfl⟩

/-- C1: in every epoch with at least one batch (and a nonzero computed batch
count), the end-of-epoch discriminator-loss report line carries the
discriminator loss returned by the last processed batch's train-step divided by
`ceil(dataset_size / batch_size)`; the running discriminator-loss sum is
accumulated (it equals the sum of the per-batch discriminator losses) but does
not enter the report. -/
theorem C1_disc_report_last_batch (c : Collab Img S GP DP GO DO GG DG) (sd : Noise)
    (batches : List (List Img)) (ds bs : Nat) (st : TrainState GP DP GO DO) (e : Nat)
    (hb : batches ≠ []) (hn : 0 < batchNum ds bs) :
    ∃ Rlast, (stepResults c st batches).getLast? = some Rlast ∧
      printedDisc (runEpoch c sd batches ds bs st e).trace =
        [Rlast.discLoss / (batchNum ds bs : ℚ)] ∧
      (runBatches c st batches).discSum =
        ((stepResults c st batches).map StepResult.discLoss).sum := by
  obtain ⟨d, hd, heq⟩ := runEpoch_success c sd batches ds bs st e hb (Nat.pos_iff_ne_zero.mp hn)
  rw [List.getLast?_map] at hd
  cases hR : (stepResults c st batches).getLast? with
  | none => rw [hR] at hd; cases hd
  | some Rlast =>
    rw [hR] at hd
    have hdd : Rlast.discLoss = d := Option.some.inj hd
    refine ⟨Rlast, rfl, ?_, ?_⟩
    · rw [heq, hdd]
      show printedDisc (stepEvsOf (stepResults c st batches) ++ _) = _
      rw [printedDisc_append, printedDisc_stepEvsOf]
      simp [printedDisc, List.filterMap_cons]
    · rw [runBatches_eq]

/-- C1 witness: a concrete two-batch epoch. -/
theorem C1_disc_report_last_batch_witness :
    ∃ Rlast, (stepResults natCollab st0 [[5], [7, 9]]).getLast? = some Rlast ∧
      printedDisc (runEpoch natCollab sd0 [[5], [7, 9]] 100 32 st0 0).trace =
        [Rlast.discLoss / (batchNum 100 32 : ℚ)] ∧
      (runBatches natCollab st0 [[5], [7, 9]]).discSum =
        ((stepResults natCollab st0 [[5], [7, 9]]).map StepResult.discLoss).sum :=
  C1_disc_report_last_batch natCollab sd0 [[5], [7, 9]] 100 32 st0 0
    (by decide) (by decide)

/-- C3: in every epoch with a nonzero computed batch count, the generator-loss
report line carries the running sum of the per-batch generator losses (started
from zero, as witnessed by the batch-loop accumulator) divided by
`ceil(dataset_size / batch_size)`; in particular for `dataset_size = 100` and
`batch_size = 32` the averaging denominator is `4`. -/
theorem C3_gen_report_mean (c : Collab Img S GP DP GO DO GG DG) (sd : Noise)
    (batches : List (List Img)) (ds bs : Nat) (st : TrainState GP DP GO DO) (e : Nat)
    (hn : 0 < batchNum ds bs) :
    printedGen (runEpoch c sd batches ds bs st e).trace =
      [((stepResults c st batches).map StepResult.genLoss).sum / (batchNum ds bs : ℚ)] ∧
    (runBatches c st batches).genSum =
      ((stepResults c st batches).map StepResult.genLoss).sum ∧
    batchNum 100 32 = 4 := by
  exact ⟨runEpoch_printedGen c sd batches ds bs st e (Nat.pos_iff_ne_zero.mp hn),
    by rw [runBatches_eq], by decide⟩

/-- C3 witness: a concrete two-batch epoch with the reference batch count. -/
theorem C3_gen_report_mean_witness :
    printedGen (runEpoch natCollab sd0 [[5], [7, 9]] 100 32 st0 0).trace =
      [((stepResults natCollab st0 [[5], [7, 9]]).map StepResult.genLoss).sum /
        (batchNum 100 32 : ℚ)] ∧
    (runBatches natCollab st0 [[5], [7, 9]]).genSum =
      ((stepResults natCollab st0 [[5], [7, 9]]).map StepResult.genLoss).sum ∧
    batchNum 100 32 = 4 :=
  C3_gen_report_mean natCollab sd0 [[5], [7, 9]] 100 32 st0 0 (by decide)

/-- C6: in a training run of `E ≥ 1` epochs over a nonempty dataset with a
nonzero computed batch count, the sampling collaborator is called with the
fixed seed exactly once per epoch (labels `1..E`, each call placed directly
after the last batch's step events of its epoch) plus once more after the
final epoch with label `E` — `E + 1` calls in all, each receiving the same
seed — and the epoch's sampling/checkpoint/report block leaves the training
state exactly as the batch loop produced it. -/
theorem C6_sampling_schedule (c : Collab Img S GP DP GO DO GG DG) (sd : Noise)
    (st : TrainState GP DP GO DO) (batches : List (List Img)) (E ds bs : Nat)
    (hE : 1 ≤ E) (hb : batches ≠ []) (hn : 0 < batchNum ds bs) :
    sampleLS (train c sd st batches E ds bs).trace =
      (List.range E).map (fun e => (e + 1, sd)) ++ [(E, sd)] ∧
    (sampleLS (train c sd st batches E ds bs).trace).length = E + 1 ∧
    (∀ p ∈ sampleLS (train c sd st batches E ds bs).trace, p.2 = sd) ∧
    (∀ (st' : TrainState GP DP GO DO) (e' : Nat), ∃ tail,
      (runEpoch c sd batches ds bs st' e').trace =
        stepEvsOf (stepResults c st' batches) ++
          Ev.sampleEv (statesEnd c st' batches).gp (e' + 1) sd :: tail ∧
      (runEpoch c sd batches ds bs st' e').state = (runBatches c st' batches).state) := by
  have hn0 := Nat.pos_iff_ne_zero.mp hn
  have hs := runEpochsFrom_success c sd batches ds bs hb hn0 (List.range E) st
  have htr := train_ok c sd st batches E ds bs hs.1
  have h1 : sampleLS (train c sd st batches E ds bs).trace =
      (List.range E).map (fun e => (e + 1, sd)) ++ [(E, sd)] := by
    rw [htr]
    show sampleLS (_ ++ _) = _
    rw [sampleLS_append, hs.2.1]
    simp [sampleLS, List.filterMap_cons]
  refine ⟨h1, ?_, ?_, ?_⟩
  · rw [h1]
    simp
  · intro p hp
    rw [h1] at hp
    rcases List.mem_append.mp hp with h | h
    · obtain ⟨e', -, rfl⟩ := List.mem_map.mp h
      rfl
    · rw [List.mem_singleton] at h
      rw [h]
  · intro st' e'
    obtain ⟨tail, htr', -, hstate⟩ := runEpoch_shape c sd batches ds bs st' e'
    refine ⟨Ev.checkpointSaveEv ckptPfx (statesEnd c st' batches).gp (statesEnd c st' batches).dp
      (statesEnd c st' batches).go (statesEnd c st' batches).dOpt ::
      Ev.printSaving :: Ev.exportEv modelExportPath (statesEnd c st' batches).gp ::
      Ev.printTime (e' + 1) :: tail, htr', ?_⟩
    rw [hstate, runBatches_eq]

/-- C6 witness: one epoch, two batches, reference dataset sizing. -/
theorem C6_sampling_schedule_witness :
    sampleLS (train natCollab sd0 st0 [[5], [7, 9]] 1 100 32).trace =
      (List.range 1).map (fun e => (e + 1, sd0)) ++ [(1, sd0)] ∧
    (sampleLS (train natCollab sd0 st0 [[5], [7, 9]] 1 100 32).trace).length = 1 + 1 ∧
    (∀ p ∈ sampleLS (train natCollab sd0 st0 [[5], [7, 9]] 1 100 32).trace, p.2 = sd0) ∧
    (∀ (st' : TrainState Nat Nat Nat Nat) (e' : Nat), ∃ tail,
      (runEpoch natCollab sd0 [[5], [7, 9]] 100 32 st' e').trace =
        stepEvsOf (stepResults natCollab st' [[5], [7, 9]]) ++
          Ev.sampleEv (statesEnd natCollab st' [[5], [7, 9]]).gp (e' + 1) sd0 :: tail ∧
      (runEpoch natCollab sd0 [[5], [7, 9]] 100 32 st' e').state =
        (runBatches natCollab st' [[5], [7, 9]]).state) :=
  C6_sampling_schedule natCollab sd0 st0 [[5], [7, 9]] 1 100 32
    (by decide) (by decide) (by decide)

/-- C7: every epoch body saves the checkpoint exactly once, under the rolling
prefix `./training_checkpoints/ckpt`, bundling the full training state (both
networks' parameters and both optimizer states) as it stands after the epoch's
batches, and separately exports the generator alone to `./models/1/` exactly
once; over a whole normal run of `E` epochs this yields exactly `E` checkpoint
saves and `E` exports — one per epoch, despite the `% 1` periodicity check
suggesting a longer interval. -/
theorem C7_checkpoint_every_epoch (c : Collab Img S GP DP GO DO GG DG) (sd : Noise)
    (st : TrainState GP DP GO DO) (batches : List (List Img)) (ds bs : Nat) (e E : Nat) :
    ckptPayloads (runEpoch c sd batches ds bs st e).trace =
      [(ckptPfx, (statesEnd c st batches).gp, (statesEnd c st batches).dp,
        (statesEnd c st batches).go, (statesEnd c st batches).dOpt)] ∧
    exportPayloads (runEpoch c sd batches ds bs st e).trace =
      [(modelExportPath, (statesEnd c st batches).gp)] ∧
    ckptPfx = "./training_checkpoints/ckpt" ∧
    modelExportPath = "./models/1/" ∧
    (batches ≠ [] → batchNum ds bs ≠ 0 →
      (ckptPayloads (train c sd st batches E ds bs).trace).length = E ∧
      (exportPayloads (train c sd st batches E ds bs).trace).length = E) := by
  refine ⟨runEpoch_ckpt c sd batches ds bs st e, runEpoch_export c sd batches ds bs st e,
    rfl, rfl, ?_⟩
  intro hb hn
  have hs := runEpochsFrom_success c sd batches ds bs hb hn (List.range E) st
  rw [train_ok c sd st batches E ds bs hs.1]
  have hc : ckptPayloads [Ev.sampleEv
      (runEpochsFrom c sd batches ds bs st (List.range E)).state.gp E sd] =
      ([] : List (String × GP × DP × GO × DO)) := rfl
  have hx : exportPayloads ([Ev.sampleEv
      (runEpochsFrom c sd batches ds bs st (List.range E)).state.gp E sd] :
        List (Ev GP DP GO DO)) = [] := rfl
  constructor
  · show (ckptPayloads (_ ++ _)).length = E
    rw [ckptPayloads_append, hc, List.append_nil, hs.2.2.1, List.length_range]
  · show (exportPayloads (_ ++ _)).length = E
    rw [exportPayloads_append, hx, List.append_nil, hs.2.2.2, List.length_range]

/-- C7 witness: one epoch, two batches, reference dataset sizing. -/
theorem C7_checkpoint_every_epoch_witness :
    ckptPayloads (runEpoch natCollab sd0 [[5], [7, 9]] 100 32 st0 0).trace =
      [(ckptPfx, (statesEnd natCollab st0 [[5], [7, 9]]).gp,
        (statesEnd natCollab st0 [[5], [7, 9]]).dp,
        (statesEnd natCollab st0 [[5], [7, 9]]).go,
        (statesEnd natCollab st0 [[5], [7, 9]]).dOpt)] ∧
    exportPayloads (runEpoch natCollab sd0 [[5], [7, 9]] 100 32 st0 0).trace =
      [(modelExportPath, (statesEnd natCollab st0 [[5], [7, 9]]).gp)] ∧
    ckptPfx = "./training_checkpoints/ckpt" ∧
    modelExportPath = "./models/1/" ∧
    ([[5], [7, 9]] ≠ ([] : List (List Nat)) → batchNum 100 32 ≠ 0 →
      (ckptPayloads (train natCollab sd0 st0 [[5], [7, 9]] 1 100 32).trace).length = 1 ∧
      (exportPayloads (train natCollab sd0 st0 [[5], [7, 9]] 1 100 32).trace).length = 1) :=
  C7_checkpoint_every_epoch natCollab sd0 st0 [[5], [7, 9]] 100 32 0 1

/-- C8: the visualization seed is drawn exactly once at startup — it has shape
`[16, noise_dim]` and consumes exactly one position of the random stream — and
in any run started just after that draw, every sampling call across all epochs
receives that identical seed value, while the noise tensors drawn inside the
train-steps are pairwise distinct (fresh per call, never reused across steps)
and none of them is the seed. -/
theorem C8_seed_fixed_noise_fresh (c : Collab Img S GP DP GO DO GG DG) (rng0 : Nat)
    (st : TrainState GP DP GO DO) (batches : List (List Img)) (E ds bs : Nat)
    (hrng : st.rng = (setupSeed rng0).2) :
    (setupSeed rng0).1.rows = num_examples_to_generate ∧
    (setupSeed rng0).1.cols = noise_dim ∧
    (setupSeed rng0).2 = rng0 + 1 ∧
    (∀ p ∈ sampleLS (train c (setupSeed rng0).1 st batches E ds bs).trace,
      p.2 = (setupSeed rng0).1) ∧
    (stepNoises (train c (setupSeed rng0).1 st batches E ds bs).trace).Nodup ∧
    (∀ n ∈ stepNoises (train c (setupSeed rng0).1 st batches E ds bs).trace,
      n ≠ (setupSeed rng0).1) := by
  obtain ⟨k, hmap, -⟩ :=
    runEpochsFrom_noises c (setupSeed rng0).1 batches ds bs (List.range E) st
  have hstep : stepNoises (train c (setupSeed rng0).1 st batches E ds bs).trace =
      stepNoises (runEpochsFrom c (setupSeed rng0).1 batches ds bs st (List.range E)).trace := by
    cases her : (runEpochsFrom c (setupSeed rng0).1 batches ds bs st (List.range E)).err with
    | some er => rw [train_err c (setupSeed rng0).1 st batches E ds bs er her]
    | none =>
      rw [train_ok c (setupSeed rng0).1 st batches E ds bs her]
      show stepNoises (_ ++ _) = _
      rw [stepNoises_append]
      simp [stepNoises, List.filterMap_cons]
  have hsamp : ∀ p ∈ sampleLS (train c (setupSeed rng0).1 st batches E ds bs).trace,
      p.2 = (setupSeed rng0).1 := by
    intro p hp
    cases her : (runEpochsFrom c (setupSeed rng0).1 batches ds bs st (List.range E)).err with
    | some er =>
      rw [train_err c (setupSeed rng0).1 st batches E ds bs er her] at hp
      exact runEpochsFrom_seeds c (setupSeed rng0).1 batches ds bs (List.range E) st p hp
    | none =>
      rw [train_ok c (setupSeed rng0).1 st batches E ds bs her] at hp
      have hp' : p ∈ sampleLS
          (runEpochsFrom c (setupSeed rng0).1 batches ds bs st (List.range E)).trace ++
          sampleLS ([Ev.sampleEv (runEpochsFrom c (setupSeed rng0).1 batches ds bs st
            (List.range E)).state.gp E (setupSeed rng0).1] : List (Ev GP DP GO DO)) := by
        rw [← sampleLS_append]
        exact hp
      rcases List.mem_append.mp hp' with h | h
      · exact runEpochsFrom_seeds c (setupSeed rng0).1 batches ds bs (List.range E) st p h
      · rw [show sampleLS ([Ev.sampleEv (runEpochsFrom c (setupSeed rng0).1 batches ds bs st
          (List.range E)).state.gp E (setupSeed rng0).1] : List (Ev GP DP GO DO)) =
          [(E, (setupSeed rng0).1)] from rfl, List.mem_singleton] at h
        rw [h]
  refine ⟨rfl, rfl, rfl, hsamp, ?_, ?_⟩
  · refine List.Nodup.of_map Noise.ctr ?_
    rw [hstep, hmap]
    exact List.nodup_range' st.rng k
  · intro n hn' heq
    have h1 : n.ctr ∈ (stepNoises (runEpochsFrom c (setupSeed rng0).1 batches ds bs st
        (List.range E)).trace).map Noise.ctr := by
      rw [← hstep]
      exact List.mem_map_of_mem Noise.ctr hn'
    rw [hmap] at h1
    have h2 : st.rng ≤ n.ctr := (List.mem_range'_1.mp h1).1
    have h3 : n.ctr = rng0 := by rw [heq]; rfl
    rw [hrng] at h2
    rw [h3] at h2
    simp [setupSeed, sampleNormal] at h2

/-- C8 witness: a two-epoch run from startup stream position 0. -/
theorem C8_seed_fixed_noise_fresh_witness :
    (setupSeed 0).1.rows = num_examples_to_generate ∧
    (setupSeed 0).1.cols = noise_dim ∧
    (setupSeed 0).2 = 0 + 1 ∧
    (∀ p ∈ sampleLS (train natCollab (setupSeed 0).1 st0 [[5], [7, 9]] 2 100 32).trace,
      p.2 = (setupSeed 0).1) ∧
    (stepNoises (train natCollab (setupSeed 0).1 st0 [[5], [7, 9]] 2 100 32).trace).Nodup ∧
    (∀ n ∈ stepNoises (train natCollab (setupSeed 0).1 st0 [[5], [7, 9]] 2 100 32).trace,
      n ≠ (setupSeed 0).1) :=
  C8_seed_fixed_noise_fresh natCollab 0 st0 [[5], [7, 9]] 2 100 32 (by decide)

/-- C9 counterexample: with an empty dataset AND `dataset_size = 0` (so the
computed batch count is `ceil(0/32) = 0`), the first epoch aborts with a
division-by-zero error while computing the generator-loss report — before the
discriminator-loss report line is ever reached — not with the unbound-variable
error the claim states; no loss report line is printed at all. -/
theorem C9_zero_batches_counterexample :
    (train natCollab sd0 st0 ([] : List (List Nat)) 1 0 32).err =
      some PyError.zeroDivision ∧
    printedDisc (train natCollab sd0 st0 ([] : List (List Nat)) 1 0 32).trace = [] ∧
    printedGen (train natCollab sd0 st0 ([] : List (List Nat)) 1 0 32).trace = [] ∧
    PyError.zeroDivision ≠ PyError.nameErrorDiscLoss := by
  refine ⟨rfl, rfl, rfl, ?_⟩
  intro h
  cases h

/-- C9 (amended): if the dataset yields zero batches in an epoch while the
computed batch count `ceil(dataset_size / batch_size)` is nonzero, the run
aborts during the first epoch's reporting with the unbound-variable error on
the never-bound per-batch `disc_loss` variable — after that epoch's sampling,
checkpoint-save and generator-export side effects (and the generator-loss
report line, whose sum over zero batches is 0) have already executed, with no
train-step ever run; when the computed batch count is zero, the abort is
instead a division-by-zero at the generator-loss report. -/
theorem C9_empty_dataset_amended (c : Collab Img S GP DP GO DO GG DG) (sd : Noise)
    (st : TrainState GP DP GO DO) (ds bs E : Nat)
    (hE : 1 ≤ E) (hn : batchNum ds bs ≠ 0) :
    (train c sd st ([] : List (List Img)) E ds bs).err =
      some PyError.nameErrorDiscLoss ∧
    printedDisc (train c sd st ([] : List (List Img)) E ds bs).trace = [] ∧
    printedGen (train c sd st ([] : List (List Img)) E ds bs).trace = [0] ∧
    sampleLS (train c sd st ([] : List (List Img)) E ds bs).trace = [(1, sd)] ∧
    ckptPayloads (train c sd st ([] : List (List Img)) E ds bs).trace =
      [(ckptPfx, st.gp, st.dp, st.go, st.dOpt)] ∧
    exportPayloads (train c sd st ([] : List (List Img)) E ds bs).trace =
      [(modelExportPath, st.gp)] ∧
    stepNoises (train c sd st ([] : List (List Img)) E ds bs).trace = [] := by
  cases E with
  | zero => exact absurd hE (by omega)
  | succ k =>
    have hep : runEpoch c sd ([] : List (List Img)) ds bs st 0 =
        ⟨st, [Ev.sampleEv st.gp 1 sd,
              Ev.checkpointSaveEv ckptPfx st.gp st.dp st.go st.dOpt,
              Ev.printSaving, Ev.exportEv modelExportPath st.gp,
              Ev.printTime 1, Ev.printGenLoss 0],
         some PyError.nameErrorDiscLoss⟩ := by
      rw [runEpoch]
      simp only [Nat.mod_one, if_pos rfl, if_true, if_neg hn]
      simp [runBatches, runBatchesAux, statesEnd, zero_div]
    have hrange : List.range (k + 1) = 0 :: List.map Nat.succ (List.range k) :=
      List.range_succ_eq_map k
    have hrun := runEpochsFrom_cons_err c sd ([] : List (List Img)) ds bs st 0
      (List.map Nat.succ (List.range k)) PyError.nameErrorDiscLoss (by rw [hep])
    rw [hep] at hrun
    have her : (runEpochsFrom c sd ([] : List (List Img)) ds bs st
        (List.range (k + 1))).err = some PyError.nameErrorDiscLoss := by
      rw [hrange, hrun]
    have htr := train_err c sd st ([] : List (List Img)) (k + 1) ds bs
      PyError.nameErrorDiscLoss her
    rw [htr, hrange, hrun]
    exact ⟨rfl, rfl, rfl, rfl, rfl, rfl, rfl⟩

/-- C9 (amended) witness: `dataset_size = 100`, `batch_size = 32`, one epoch,
empty dataset. -/
theorem C9_empty_dataset_amended_witness :
    (train natCollab sd0 st0 ([] : List (List Nat)) 1 100 32).err =
      some PyError.nameErrorDiscLoss ∧
    printedDisc (train natCollab sd0 st0 ([] : List (List Nat)) 1 100 32).trace = [] ∧
    printedGen (train natCollab sd0 st0 ([] : List (List Nat)) 1 100 32).trace = [0] ∧
    sampleLS (train natCollab sd0 st0 ([] : List (List Nat)) 1 100 32).trace = [(1, sd0)] ∧
    ckptPayloads (train natCollab sd0 st0 ([] : List (List Nat)) 1 100 32).trace =
      [(ckptPfx, st0.gp, st0.dp, st0.go, st0.dOpt)] ∧
    exportPayloads (train natCollab sd0 st0 ([] : List (List Nat)) 1 100 32).trace =
      [(modelExportPath, st0.gp)] ∧
    stepNoises (train natCollab sd0 st0 ([] : List (List Nat)) 1 100 32).trace = [] :=
  C9_empty_dataset_amended natCollab sd0 st0 100 32 1 (by decide) (by decide)

end Claims

end GanTrain
